import Mathlib

/-!
Verification of the TradeHub account/session/verification core.

This file shallowly embeds the account slice of `src/app.py`: the user store
(`data.json`, modelled as a list of records), the three process-lifetime
transient stores (verification codes, verified tokens, pending email changes,
modelled as association lists), the session principal, and the HTTP handlers
that operate on them (`api_post_storage`, `api_login`, `api_request_code`,
`api_verify_code`, `api_reset_password`, `api_request_email_change`,
`api_confirm_email_change`, `api_update_profile`).

Modelling conventions:
- timestamps are `Nat`; `time.time()` becomes an explicit `now` parameter
  (a single request uses one instant);
- randomness (`secrets.token_urlsafe`, `generate_password_hash`,
  `random.choice`) is passed in as oracle parameters: a token string, a hash
  string, and a stream of `Draw`s feeding the code generator;
- the source's unbounded retry loop in `_generate_unique_code` is modelled
  over a finite draw stream, returning `none` when the stream is exhausted
  (unreachable in the source, which retries forever); callers propagate the
  `Option`;
- a Python dict is an association list whose lookup takes the first matching
  key; missing dict keys on user records are modelled by their falsy defaults
  (`""` / `false`), matching the `.get(...)` access pattern of the source.
-/

namespace TradeHub

/-- Python `str.strip()` on a character list: drop whitespace from both ends. -/
def stripList (l : List Char) : List Char :=
  ((l.dropWhile Char.isWhitespace).reverse.dropWhile Char.isWhitespace).reverse

/-- Python `str.strip()`. -/
def pyStrip (s : String) : String := String.mk (stripList s.toList)

/-- One record of `data.json`. `code = ""` models a missing/`None` code
(both are falsy under `user.get('code')`). -/
structure UserRec where
  email : String
  pass : String
  name : String
  email_changed : Bool
  name_changed : Bool
  code : String
deriving DecidableEq

/-- An entry of `CODE_STORE`: `{"code": ..., "exp": ...}`. -/
structure CodeEntry where
  code : String
  exp : Nat
deriving DecidableEq

/-- An entry of `VERIFIED_TOKENS`: `{"token": ..., "exp": ...}`. -/
structure TokenEntry where
  token : String
  exp : Nat
deriving DecidableEq

/-- An entry of `PENDING_EMAIL_CHANGES`:
`{"new_email": ..., "code": ..., "exp": ...}`. -/
structure PendingEntry where
  new_email : String
  code : String
  exp : Nat
deriving DecidableEq

/-- The server's mutable state: the user file plus the three in-memory stores
and the session principal (`session['user_email']`). -/
structure ServerState where
  users : List UserRec
  codeStore : List (String × CodeEntry)
  verifiedTokens : List (String × TokenEntry)
  pendingEmailChanges : List (String × PendingEntry)
  sessionEmail : Option String
deriving DecidableEq

/-- A JSON response: HTTP status, the `ok` field, and the optional `token`
field. -/
structure Resp where
  status : Nat
  ok : Bool
  token : Option String
deriving DecidableEq

def CODE_TTL_SECONDS : Nat := 5 * 60
def TOKEN_TTL_SECONDS : Nat := 5 * 60

/-- Dict read `d.get(k)`: first entry with the key. -/
def alistLookup {α : Type} (m : List (String × α)) (k : String) : Option α :=
  (m.find? (fun kv => kv.1 == k)).map (fun kv => kv.2)

/-- Dict write `d[k] = v`: overwrite in place, or append a new binding. -/
def alistInsert {α : Type} (m : List (String × α)) (k : String) (v : α) :
    List (String × α) :=
  if m.any (fun kv => kv.1 == k) then
    m.map (fun kv => if kv.1 == k then (k, v) else kv)
  else m ++ [(k, v)]

/-- Dict delete `del d[k]`. -/
def alistErase {α : Type} (m : List (String × α)) (k : String) :
    List (String × α) :=
  m.filter (fun kv => kv.1 != k)

/-- `_purge_expired()`: drops the entries with `exp < now` from `CODE_STORE`
and `VERIFIED_TOKENS`. The source iterates over exactly these two dicts;
`PENDING_EMAIL_CHANGES` is not purged. -/
def _purge_expired (st : ServerState) (now : Nat) : ServerState :=
  { st with
    codeStore := st.codeStore.filter (fun kv => !decide (kv.2.exp < now)),
    verifiedTokens := st.verifiedTokens.filter (fun kv => !decide (kv.2.exp < now)) }

/-- `string.ascii_letters`. -/
def asciiLetters : List Char :=
  "abcdefghijklmnopqrstuvwxyzABCDEFGHIJKLMNOPQRSTUVWXYZ".toList

/-- `string.ascii_letters + string.digits`, the candidate alphabet. -/
def codeAlphabet : List Char := asciiLetters ++ "0123456789".toList

/-- One round of random choices inside `_generate_unique_code`: an index into
`ascii_letters` for the first character and indices into the alphabet for the
rest (reduced mod the alphabet sizes). -/
structure Draw where
  first : Nat
  rest : List Nat
deriving DecidableEq

/-- The candidate code a draw produces: one letter then 6 alphabet characters. -/
def drawCode (d : Draw) : String :=
  String.mk (asciiLetters.getD (d.first % 52) 'a' ::
    (List.range 6).map (fun j => codeAlphabet.getD (d.rest.getD j 0 % 62) 'a'))

/-- `_generate_unique_code(existing, 7)`: keep drawing candidates until one is
not in `existing`. `none` models exhausting the (finite) draw stream, which
the source's forever-retry loop cannot hit. -/
def _generate_unique_code (draws : List Draw) (existing : List String) :
    Option String :=
  (draws.map drawCode).find? (fun c => !(existing.contains c))

/-- The spec's code shape: 7 characters, the first alphabetic, the rest
alphanumeric. -/
def codeFormatB (s : String) : Bool :=
  match s.toList with
  | [] => false
  | c :: rest =>
    asciiLetters.contains c && rest.length == 6 &&
      rest.all (fun x => codeAlphabet.contains x)

/-- The set comprehension `{u.get('code') for u in users if u.get('code')}`. -/
def existingCodes (users : List UserRec) : List String :=
  (users.filter (fun u => u.code != "")).map (fun u => u.code)

/-- `_ensure_user_code(users, user)`, with the by-reference `user` argument
replaced by its position `i` in `users`. Returns whether the record was
modified together with the updated list. -/
def _ensure_user_code (draws : List Draw) (users : List UserRec) (i : Nat) :
    Option (Bool × List UserRec) :=
  match users[i]? with
  | none => some (false, users)
  | some user =>
    if user.code != "" then some (false, users)
    else
      match _generate_unique_code draws (existingCodes users) with
      | none => none
      | some c => some (true, users.set i { user with code := c })

/-- `_find_user(users, email)`: linear scan, first match. -/
def _find_user (users : List UserRec) (email : String) : Option UserRec :=
  users.find? (fun u => u.email == email)

/-- `_find_user` returning also the position of the match, standing in for the
source's by-reference mutation of the found dict. -/
def findUserIdx : List UserRec → String → Option (Nat × UserRec)
  | [], _ => none
  | u :: rest, email =>
    if u.email == email then some (0, u)
    else (findUserIdx rest email).map (fun p => (p.1 + 1, p.2))

/-- `POST /api/storage` (registration). `hashed` is the oracle output of
`generate_password_hash(password)`. Returns the response and the persisted
user list. -/
def api_post_storage (hashed : String) (draws : List Draw)
    (users : List UserRec) (email pass name : String) :
    Option (Resp × List UserRec) :=
  let email := pyStrip email
  let password := pyStrip pass
  let name := pyStrip name
  if email == "" || password == "" then some (⟨400, false, none⟩, users)
  else if users.any (fun u => u.email == email) then
    some (⟨409, false, none⟩, users)
  else
    let newUser : UserRec := ⟨email, hashed, name, false, false, ""⟩
    let users2 := users ++ [newUser]
    match _ensure_user_code draws users2 users.length with
    | none => none
    | some (_, users3) => some (⟨200, true, none⟩, users3)

/-- `valid` in `api_login`: `check_password_hash` with the legacy plaintext
fallback when hashing raises. `checkHash stored pw = none` models the raised
exception. -/
def passwordValid (checkHash : String → String → Option Bool)
    (stored password : String) : Bool :=
  match checkHash stored password with
  | some b => b
  | none => stored == password

/-- `POST /api/login`. The returned state's `users` is the content of the
backing file when the handler returns (the source writes it exactly when the
code backfill modified it). -/
def api_login (checkHash : String → String → Option Bool) (draws : List Draw)
    (st : ServerState) (email pass : String) : Option (Resp × ServerState) :=
  let email := pyStrip email
  let password := pyStrip pass
  if email == "" || password == "" then some (⟨400, false, none⟩, st)
  else
    match findUserIdx st.users email with
    | none => some (⟨401, false, none⟩, st)
    | some (i, u) =>
      match _ensure_user_code draws st.users i with
      | none => none
      | some (_, users2) =>
        let st2 := { st with users := users2 }
        if !passwordValid checkHash u.pass password then
          some (⟨401, false, none⟩, st2)
        else
          some (⟨200, true, none⟩, { st2 with sessionEmail := some email })

/-- `POST /api/request_code`. -/
def api_request_code (st : ServerState) (now : Nat) (email code : String) :
    Resp × ServerState :=
  let email := pyStrip email
  let code := pyStrip code
  if email == "" || code == "" || code.length != 6 ||
      !(code.toList.all (fun c => c.isDigit)) then
    (⟨400, false, none⟩, st)
  else
    let st := _purge_expired st now
    (⟨200, true, none⟩,
      { st with codeStore :=
          alistInsert st.codeStore email ⟨code, now + CODE_TTL_SECONDS⟩ })

/-- `POST /api/verify_code`. `token` is the oracle output of
`secrets.token_urlsafe(24)`. -/
def api_verify_code (st : ServerState) (now : Nat) (token : String)
    (email code : String) : Resp × ServerState :=
  let email := pyStrip email
  let code := pyStrip code
  if email == "" || code == "" then (⟨400, false, none⟩, st)
  else
    let st := _purge_expired st now
    match alistLookup st.codeStore email with
    | none => (⟨400, false, none⟩, st)
    | some entry =>
      if entry.code != code || decide (entry.exp < now) then
        (⟨400, false, none⟩, st)
      else
        (⟨200, true, some token⟩,
          { st with
            verifiedTokens :=
              alistInsert st.verifiedTokens email ⟨token, now + TOKEN_TTL_SECONDS⟩,
            sessionEmail := some email,
            codeStore := alistErase st.codeStore email })

/-- `POST /api/reset_password`. `hashed` is the oracle output of
`generate_password_hash(new_pass)`. -/
def api_reset_password (hashed : String) (st : ServerState) (now : Nat)
    (email new_pass token : String) : Resp × ServerState :=
  let email := pyStrip email
  let new_pass := pyStrip new_pass
  let token := pyStrip token
  if email == "" || new_pass == "" || token == "" then (⟨400, false, none⟩, st)
  else
    let st := _purge_expired st now
    match alistLookup st.verifiedTokens email with
    | none => (⟨400, false, none⟩, st)
    | some v =>
      if v.token != token || decide (v.exp < now) then (⟨400, false, none⟩, st)
      else
        match findUserIdx st.users email with
        | none => (⟨404, false, none⟩, st)
        | some (i, u) =>
          (⟨200, true, none⟩,
            { st with
              users := st.users.set i { u with pass := hashed },
              verifiedTokens := alistErase st.verifiedTokens email })

/-- `POST /api/request_email_change`. -/
def api_request_email_change (st : ServerState) (now : Nat)
    (new_email code : String) : Resp × ServerState :=
  match st.sessionEmail with
  | none => (⟨401, false, none⟩, st)
  | some current_email =>
    let new_email := pyStrip new_email
    let code := pyStrip code
    if new_email == "" || code == "" || code.length != 6 ||
        !(code.toList.all (fun c => c.isDigit)) then
      (⟨400, false, none⟩, st)
    else if (_find_user st.users new_email).isSome then (⟨409, false, none⟩, st)
    else
      let st := _purge_expired st now
      let pend := alistInsert st.pendingEmailChanges current_email
        ⟨new_email, code, now + CODE_TTL_SECONDS⟩
      (⟨200, true, none⟩, { st with pendingEmailChanges := pend })

/-- `POST /api/confirm_email_change`. -/
def api_confirm_email_change (st : ServerState) (now : Nat)
    (new_email code : String) : Resp × ServerState :=
  match st.sessionEmail with
  | none => (⟨401, false, none⟩, st)
  | some current_email =>
    let new_email := pyStrip new_email
    let code := pyStrip code
    if new_email == "" || code == "" then (⟨400, false, none⟩, st)
    else
      let st := _purge_expired st now
      match alistLookup st.pendingEmailChanges current_email with
      | none => (⟨400, false, none⟩, st)
      | some entry =>
        if entry.new_email != new_email || entry.code != code ||
            decide (entry.exp < now) then
          (⟨400, false, none⟩, st)
        else if (_find_user st.users new_email).isSome then
          (⟨409, false, none⟩, st)
        else
          match findUserIdx st.users current_email with
          | none => (⟨404, false, none⟩, st)
          | some (i, user) =>
            let user2 := { user with email := new_email, email_changed := true }
            (⟨200, true, none⟩,
              { st with
                users := st.users.set i user2,
                sessionEmail := some new_email,
                pendingEmailChanges :=
                  alistErase st.pendingEmailChanges current_email })

/-- `POST /api/update_profile`. -/
def api_update_profile (st : ServerState) (field value : String) :
    Resp × ServerState :=
  match st.sessionEmail with
  | none => (⟨401, false, none⟩, st)
  | some current_email =>
    let field := pyStrip field
    let value := pyStrip value
    if (field != "email" && field != "name") || value == "" then
      (⟨400, false, none⟩, st)
    else
      match findUserIdx st.users current_email with
      | none => (⟨404, false, none⟩, st)
      | some (i, user) =>
        if field == "email" then
          if user.email_changed then (⟨403, false, none⟩, st)
          else if (_find_user st.users value).isSome && value != current_email then
            (⟨409, false, none⟩, st)
          else
            let user2 := { user with email := value, email_changed := true }
            (⟨200, true, none⟩,
              { st with
                users := st.users.set i user2,
                sessionEmail := some value })
        else
          if user.name_changed then (⟨403, false, none⟩, st)
          else
            let user2 := { user with name := value, name_changed := true }
            (⟨200, true, none⟩, { st with users := st.users.set i user2 })

/-! ### Association-list (dict) lemmas -/

theorem alistLookup_cons_pos {α : Type} {hd : String × α} {tl : List (String × α)}
    {k : String} (h : (hd.1 == k) = true) :
    alistLookup (hd :: tl) k = some hd.2 := by
  simp [alistLookup, List.find?_cons, h]

theorem alistLookup_cons_neg {α : Type} {hd : String × α} {tl : List (String × α)}
    {k : String} (h : (hd.1 == k) = false) :
    alistLookup (hd :: tl) k = alistLookup tl k := by
  simp [alistLookup, List.find?_cons, h]

theorem find?_map_overwrite {α : Type} (k : String) (v : α) :
    ∀ (m : List (String × α)), m.any (fun kv => kv.1 == k) = true →
      (m.map (fun kv => if kv.1 == k then (k, v) else kv)).find?
        (fun kv => kv.1 == k) = some (k, v)
  | [], h => by simp at h
  | hd :: tl, h => by
    cases hk : (hd.1 == k) with
    | true =>
      simp only [List.map_cons, if_pos hk]
      simp [List.find?_cons]
    | false =>
      have hcond : ¬ ((hd.1 == k) = true) := by simp [hk]
      simp only [List.map_cons, if_neg hcond]
      rw [List.find?_cons]
      simp only [hk]
      apply find?_map_overwrite k v tl
      simpa [hk] using h

theorem find?_append_of_none {α : Type} {p : α → Bool} :
    ∀ {l₁ : List α}, l₁.find? p = none → ∀ l₂ : List α,
      (l₁ ++ l₂).find? p = l₂.find? p
  | [], _, l₂ => rfl
  | hd :: tl, h, l₂ => by
    have hhd : ¬ (p hd = true) := by
      intro hp
      rw [List.find?_cons_of_pos _ hp] at h
      exact absurd h (by simp)
    rw [List.find?_cons_of_neg _ hhd] at h
    rw [List.cons_append, List.find?_cons_of_neg _ hhd]
    exact find?_append_of_none h l₂

/-- Writing `d[k] = v` makes `d.get(k)` return `v`. -/
theorem alistLookup_insert {α : Type} (m : List (String × α)) (k : String) (v : α) :
    alistLookup (alistInsert m k v) k = some v := by
  unfold alistInsert
  by_cases h : m.any (fun kv => kv.1 == k) = true
  · rw [if_pos h]
    unfold alistLookup
    rw [find?_map_overwrite k v m h]
    rfl
  · rw [if_neg h]
    unfold alistLookup
    have hnone : m.find? (fun kv => kv.1 == k) = none := by
      rw [List.find?_eq_none]
      intro x hx hpx
      exact h (List.any_eq_true.mpr ⟨x, hx, hpx⟩)
    rw [find?_append_of_none hnone]
    simp [List.find?_cons]

/-- After `del d[k]`, `d.get(k)` returns nothing. -/
theorem alistLookup_erase_self {α : Type} (m : List (String × α)) (k : String) :
    alistLookup (alistErase m k) k = none := by
  simp only [alistLookup, alistErase, Option.map_eq_none']
  rw [List.find?_eq_none]
  intro x hx
  have hne := (List.mem_filter.mp hx).2
  simp only [bne_iff_ne, ne_eq] at hne
  simp [hne]

/-- A key absent from a dict stays absent after any filtering of it. -/
theorem alistLookup_filter_none {α : Type} {m : List (String × α)} {k : String}
    (p : String × α → Bool) (h : alistLookup m k = none) :
    alistLookup (m.filter p) k = none := by
  simp only [alistLookup, Option.map_eq_none'] at h ⊢
  rw [List.find?_eq_none] at h ⊢
  intro x hx
  exact h x (List.mem_filter.mp hx).1

/-- A binding whose value the filter keeps is still the one a lookup finds. -/
theorem alistLookup_filter_pos {α : Type} {p : String × α → Bool} :
    ∀ {m : List (String × α)} {k : String} {v : α},
      alistLookup m k = some v → p (k, v) = true →
      alistLookup (m.filter p) k = some v := by
  intro m
  induction m with
  | nil => intro k v h _; simp [alistLookup] at h
  | cons hd tl ih =>
    intro k v h hp
    cases hk : (hd.1 == k) with
    | true =>
      have hkey : hd.1 = k := by simpa using hk
      rw [alistLookup_cons_pos hk] at h
      have hhd : hd = (k, v) := by
        cases hd
        simp_all
      subst hhd
      rw [List.filter_cons_of_pos (by simpa using hp)]
      exact alistLookup_cons_pos (beq_self_eq_true k)
    | false =>
      rw [alistLookup_cons_neg hk] at h
      have htl := ih h hp
      by_cases hph : p hd = true
      · rw [List.filter_cons_of_pos hph, alistLookup_cons_neg hk]
        exact htl
      · rw [List.filter_cons_of_neg hph]
        exact htl

theorem alistLookup_eq_none_of_not_key {α : Type} {m : List (String × α)}
    {k : String} (h : k ∉ m.map Prod.fst) : alistLookup m k = none := by
  simp only [alistLookup, Option.map_eq_none']
  rw [List.find?_eq_none]
  intro x hx hpx
  have hx1 : x.1 = k := by simpa using hpx
  exact h (List.mem_map.mpr ⟨x, hx, hx1⟩)

/-- With duplicate-free keys (a real dict), a binding the filter rejects is
gone from lookups after filtering. -/
theorem alistLookup_filter_neg {α : Type} {p : String × α → Bool} :
    ∀ {m : List (String × α)} {k : String} {v : α},
      (m.map Prod.fst).Nodup →
      alistLookup m k = some v → p (k, v) = false →
      alistLookup (m.filter p) k = none := by
  intro m
  induction m with
  | nil => intro k v _ h _; simp [alistLookup] at h
  | cons hd tl ih =>
    intro k v hnd h hp
    rw [List.map_cons] at hnd
    have hnd' := List.nodup_cons.mp hnd
    cases hk : (hd.1 == k) with
    | true =>
      have hkey : hd.1 = k := by simpa using hk
      rw [alistLookup_cons_pos hk] at h
      have hhd : hd = (k, v) := by
        cases hd
        simp_all
      have hnotk : k ∉ tl.map Prod.fst := by
        rw [← hkey]
        exact hnd'.1
      rw [List.filter_cons_of_neg (by simp [hhd, hp])]
      exact alistLookup_filter_none p (alistLookup_eq_none_of_not_key hnotk)
    | false =>
      rw [alistLookup_cons_neg hk] at h
      have htl := ih hnd'.2 h hp
      by_cases hph : p hd = true
      · rw [List.filter_cons_of_pos hph, alistLookup_cons_neg hk]
        exact htl
      · rw [List.filter_cons_of_neg hph]
        exact htl

/-! ### User-list and code-generation lemmas -/

/-- The index `findUserIdx` returns points at the user it returns. -/
theorem findUserIdx_getElem :
    ∀ (users : List UserRec) (e : String) (i : Nat) (u : UserRec),
      findUserIdx users e = some (i, u) → users[i]? = some u
  | [], _, _, _, h => by simp [findUserIdx] at h
  | x :: rest, e, i, u, h => by
    unfold findUserIdx at h
    by_cases hx : (x.email == e) = true
    · rw [if_pos hx] at h
      injection h with h
      injection h with h1 h2
      subst h1
      subst h2
      simp
    · rw [if_neg hx] at h
      cases hp : findUserIdx rest e with
      | none => rw [hp] at h; simp at h
      | some q =>
        rw [hp] at h
        injection h with h
        injection h with h1 h2
        subst h2
        have hq := findUserIdx_getElem rest e q.1 q.2 (by rw [hp])
        rw [← h1]
        simpa using hq

/-- `findUserIdx` succeeds exactly where `_find_user` does, on the same user. -/
theorem findUserIdx_find_user :
    ∀ (users : List UserRec) (e : String),
      _find_user users e = (findUserIdx users e).map (fun p => p.2)
  | [], _ => rfl
  | x :: rest, e => by
    unfold _find_user findUserIdx
    rw [List.find?_cons]
    by_cases hx : (x.email == e) = true
    · rw [if_pos hx]
      simp [hx]
    · have hx' : (x.email == e) = false := by simpa using hx
      rw [if_neg hx]
      simp only [hx']
      have hrec := findUserIdx_find_user rest e
      unfold _find_user at hrec
      rw [hrec, Option.map_map]
      rfl

theorem getElem?_some_of_findUserIdx {users : List UserRec} {e : String}
    {i : Nat} {u : UserRec} (h : findUserIdx users e = some (i, u)) :
    i < users.length :=
  (List.getElem?_eq_some_iff.mp (findUserIdx_getElem users e i u h)).1

/-- Setting the last slot of `users ++ [a]`. -/
theorem set_concat {α : Type} (l : List α) (a b : α) :
    (l ++ [a]).set l.length b = l ++ [b] := by
  rw [List.set_append_right _ _ (Nat.le_refl _)]
  simp

theorem getD_mem {α : Type} (l : List α) (n : Nat) (d : α) (h : n < l.length) :
    l.getD n d ∈ l := by
  rw [List.getD_eq_getElem?_getD, List.getElem?_eq_getElem h]
  exact List.getElem_mem h

theorem asciiLetters_length : asciiLetters.length = 52 := by decide

theorem codeAlphabet_length : codeAlphabet.length = 62 := by decide

theorem codeFormatB_mk (c : Char) (rest : List Char) :
    codeFormatB (String.mk (c :: rest)) =
      (asciiLetters.contains c && rest.length == 6 &&
        rest.all (fun x => codeAlphabet.contains x)) := rfl

/-- Every candidate the generator draws is 7 characters, the first a letter,
the rest alphanumeric. -/
theorem drawCode_format (d : Draw) : codeFormatB (drawCode d) = true := by
  unfold drawCode
  rw [codeFormatB_mk]
  simp only [Bool.and_eq_true]
  refine ⟨⟨?_, ?_⟩, ?_⟩
  · have hlt : d.first % 52 < asciiLetters.length := by
      rw [asciiLetters_length]
      exact Nat.mod_lt _ (by decide)
    have hmem := getD_mem asciiLetters (d.first % 52) 'a' hlt
    exact List.elem_iff.mpr hmem
  · simp
  · rw [List.all_eq_true]
    intro x hx
    rcases List.mem_map.mp hx with ⟨j, _, rfl⟩
    have hlt : d.rest.getD j 0 % 62 < codeAlphabet.length := by
      rw [codeAlphabet_length]
      exact Nat.mod_lt _ (by decide)
    have hmem := getD_mem codeAlphabet (d.rest.getD j 0 % 62) 'a' hlt
    exact List.elem_iff.mpr hmem

theorem codeFormatB_empty : codeFormatB "" = false := rfl

theorem codeFormatB_ne_empty {s : String} (h : codeFormatB s = true) : s ≠ "" := by
  intro he
  rw [he, codeFormatB_empty] at h
  exact absurd h (by simp)

/-- What a successful `_generate_unique_code` returns: a well-formed code that
collides with no existing one. -/
theorem generate_unique_spec {draws : List Draw} {existing : List String}
    {c : String} (h : _generate_unique_code draws existing = some c) :
    codeFormatB c = true ∧ existing.contains c = false := by
  unfold _generate_unique_code at h
  have hp := List.find?_some h
  have hm := List.mem_of_find?_eq_some h
  constructor
  · rcases List.mem_map.mp hm with ⟨d, _, rfl⟩
    exact drawCode_format d
  · simpa using hp

/-- Appending a code-less record does not change the set of existing codes. -/
theorem existingCodes_concat (users : List UserRec) (r : UserRec)
    (h : r.code = "") : existingCodes (users ++ [r]) = existingCodes users := by
  unfold existingCodes
  rw [List.filter_append]
  have hr : [r].filter (fun u => u.code != "") = [] := by
    simp [List.filter, h]
  rw [hr, List.append_nil]

/-- A code outside `existingCodes users` differs from every assigned code. -/
theorem code_ne_of_not_existing {users : List UserRec} {c : String}
    (h : (existingCodes users).contains c = false) :
    ∀ u ∈ users, u.code ≠ "" → u.code ≠ c := by
  intro u hu hne heq
  have hmem : c ∈ existingCodes users := by
    unfold existingCodes
    exact List.mem_map.mpr ⟨u, List.mem_filter.mpr ⟨hu, by simpa using hne⟩, heq⟩
  have h2 : (existingCodes users).contains c = true := List.elem_iff.mpr hmem
  rw [h2] at h
  exact absurd h (by simp)

/-! ### Claim theorems -/

/-- C3: for every user store and every email already present in it, a second
registration attempt for that email fails with 409 (conflict) and returns the
store unchanged — registration never overwrites an existing record, so the
store still holds exactly the one original record (with its original
password) for that email. -/
theorem api_post_storage_conflict (hashed : String) (draws : List Draw)
    (users : List UserRec) (email pass name : String) (u : UserRec)
    (he : pyStrip email = email) (hne : email ≠ "")
    (hpne : pyStrip pass ≠ "")
    (hu : u ∈ users) (hmail : u.email = email) :
    api_post_storage hashed draws users email pass name =
      some (⟨409, false, none⟩, users) := by
  have hany : users.any (fun v => v.email == email) = true :=
    List.any_eq_true.mpr ⟨u, hu, by simp [hmail]⟩
  have hemail : (email == "") = false := by simpa using hne
  have hpassb : (pyStrip pass == "") = false := by simpa using hpne
  unfold api_post_storage
  rw [he]
  simp [hemail, hpassb, hany]

/-- C3 witness: registering `a@x.com` over a store that already holds an
`a@x.com` record yields 409 and the unchanged store. -/
theorem api_post_storage_conflict_witness :
    api_post_storage "HASH2" [] [⟨"a@x.com", "h1", "", false, false, "Az34Als"⟩]
        "a@x.com" "pw" "" =
      some (⟨409, false, none⟩,
        [⟨"a@x.com", "h1", "", false, false, "Az34Als"⟩]) :=
  api_post_storage_conflict "HASH2" [] _ "a@x.com" "pw" ""
    ⟨"a@x.com", "h1", "", false, false, "Az34Als"⟩
    (by decide) (by decide) (by decide) (by decide) rfl

/-- C7: when the user at position `i` lacks a code and the generator yields
`c`, the ensure-code step assigns `c` — a 7-character code, first character
alphabetic, the rest alphanumeric, distinct from every existing code — and
reports a mutation; running it again on the result (or on any user that
already has a code) is a no-op reporting no mutation. -/
theorem ensure_user_code_spec (draws : List Draw) (users : List UserRec)
    (i : Nat) (u : UserRec) (c : String)
    (hu : users[i]? = some u) (hcode : u.code = "")
    (hgen : _generate_unique_code draws (existingCodes users) = some c) :
    _ensure_user_code draws users i =
      some (true, users.set i { u with code := c }) ∧
    codeFormatB c = true ∧
    (∀ v ∈ users, v.code ≠ "" → v.code ≠ c) ∧
    (∀ draws2, _ensure_user_code draws2 (users.set i { u with code := c }) i =
      some (false, users.set i { u with code := c })) ∧
    (∀ (users2 : List UserRec) (j : Nat) (v : UserRec) (draws2 : List Draw),
      users2[j]? = some v → v.code ≠ "" →
      _ensure_user_code draws2 users2 j = some (false, users2)) := by
  obtain ⟨hfmt, hcont⟩ := generate_unique_spec hgen
  have hcne : c ≠ "" := codeFormatB_ne_empty hfmt
  have hnoop : ∀ (users2 : List UserRec) (j : Nat) (v : UserRec)
      (draws2 : List Draw), users2[j]? = some v → v.code ≠ "" →
      _ensure_user_code draws2 users2 j = some (false, users2) := by
    intro users2 j v draws2 hv hvc
    unfold _ensure_user_code
    rw [hv]
    simp [hvc]
  refine ⟨?_, hfmt, code_ne_of_not_existing hcont, ?_, hnoop⟩
  · unfold _ensure_user_code
    rw [hu]
    simp [hcode, hgen]
  · intro draws2
    have hlt : i < users.length := (List.getElem?_eq_some_iff.mp hu).1
    have hset : (users.set i { u with code := c })[i]? =
        some { u with code := c } := List.getElem?_set_self hlt
    exact hnoop _ i { u with code := c } draws2 hset hcne

/-- C7 witness: a code-less user gets the generated code `aaaaaaa` with a
mutation report, and the second run is a no-op. -/
theorem ensure_user_code_spec_witness :
    _ensure_user_code [⟨0, [0, 0, 0, 0, 0, 0]⟩]
        [⟨"a@x.com", "h", "", false, false, ""⟩] 0 =
      some (true, [⟨"a@x.com", "h", "", false, false, "aaaaaaa"⟩]) :=
  (ensure_user_code_spec [⟨0, [0, 0, 0, 0, 0, 0]⟩]
    [⟨"a@x.com", "h", "", false, false, ""⟩] 0
    ⟨"a@x.com", "h", "", false, false, ""⟩ "aaaaaaa"
    (by decide) rfl (by decide)).1

/-- C8: registering a fresh, non-empty email and password succeeds and
appends exactly one record whose stored password is the hash-oracle output
(not the plaintext input), whose `email_changed`/`name_changed` flags are
false, and whose code is non-empty, well-formed and distinct from every
existing code — all assigned immediately at creation. -/
theorem api_post_storage_success (hashed : String) (draws : List Draw)
    (users : List UserRec) (email pass name : String) (c : String)
    (he : pyStrip email = email) (hp : pyStrip pass = pass)
    (hn : pyStrip name = name) (hne : email ≠ "") (hpne : pass ≠ "")
    (hnotin : ∀ u ∈ users, u.email ≠ email)
    (hgen : _generate_unique_code draws (existingCodes users) = some c) :
    api_post_storage hashed draws users email pass name =
      some (⟨200, true, none⟩,
        users ++ [⟨email, hashed, name, false, false, c⟩]) ∧
    c ≠ "" ∧ codeFormatB c = true ∧
    (∀ u ∈ users, u.code ≠ "" → u.code ≠ c) := by
  obtain ⟨hfmt, hcont⟩ := generate_unique_spec hgen
  have hcne : c ≠ "" := codeFormatB_ne_empty hfmt
  refine ⟨?_, hcne, hfmt, code_ne_of_not_existing hcont⟩
  have hemail : (email == "") = false := by simpa using hne
  have hpassb : (pass == "") = false := by simpa using hpne
  have hany : users.any (fun v => v.email == email) = false := by
    rw [List.any_eq_false]
    intro v hv
    simp [hnotin v hv]
  have hnew : (users ++ [(⟨email, hashed, name, false, false, ""⟩ : UserRec)])[users.length]? =
      some ⟨email, hashed, name, false, false, ""⟩ :=
    List.getElem?_concat_length users _
  have hex : existingCodes (users ++ [(⟨email, hashed, name, false, false, ""⟩ : UserRec)]) =
      existingCodes users := existingCodes_concat users _ rfl
  have hens : _ensure_user_code draws
      (users ++ [⟨email, hashed, name, false, false, ""⟩]) users.length =
      some (true, users ++ [⟨email, hashed, name, false, false, c⟩]) := by
    unfold _ensure_user_code
    rw [hnew]
    simp only [hex, hgen]
    simp [set_concat]
  unfold api_post_storage
  rw [he, hp, hn]
  simp [hemail, hpassb, hany, hens]

/-- C8 witness: registering `a@x.com` into an empty store appends a hashed
record with unset flags and the generated code `aaaaaaa`. -/
theorem api_post_storage_success_witness :
    api_post_storage "HASH1" [⟨0, [0, 0, 0, 0, 0, 0]⟩] [] "a@x.com" "pw" "bob" =
      some (⟨200, true, none⟩,
        [⟨"a@x.com", "HASH1", "bob", false, false, "aaaaaaa"⟩]) :=
  (api_post_storage_success "HASH1" [⟨0, [0, 0, 0, 0, 0, 0]⟩] [] "a@x.com" "pw"
    "bob" "aaaaaaa" (by decide) (by decide) (by decide) (by decide) (by decide)
    (by intro u hu; simp at hu) (by decide)).1

/-- A state whose single user has already consumed the one-time email change
(`email_changed = true`) yet holds a valid pending email-change entry. -/
def flagTrueState : ServerState :=
  { users := [⟨"a@x.com", "h", "", true, false, "Az34Als"⟩],
    codeStore := [], verifiedTokens := [],
    pendingEmailChanges := [("a@x.com", ⟨"b@x.com", "123456", 100⟩)],
    sessionEmail := some "a@x.com" }

/-- C1 counterexample: the account's `email_changed` flag is already true, yet
`confirmEmailChange` succeeds and mutates the email a second time — the
two-step flow never consults the flag, refuting the claim that no operation
mutates a one-time field once its flag is set. -/
theorem confirm_email_change_ignores_flag_cex :
    (flagTrueState.users.map (fun u => u.email_changed)) = [true] ∧
    (api_confirm_email_change flagTrueState 0 "b@x.com" "123456").1.ok = true ∧
    ((api_confirm_email_change flagTrueState 0 "b@x.com" "123456").2.users.map
      (fun u => u.email)) = ["b@x.com"] := by decide

/-- C1 (amended): `updateProfile` does enforce the one-time guard — once the
field's flag is true, the corresponding update fails with 403 and leaves the
state unchanged. The two-step `requestEmailChange`/`confirmEmailChange` flow
sets `email_changed` but never checks it, so the email field can be mutated
again through that flow (see the counterexample). -/
theorem api_update_profile_one_time_guard (st : ServerState) (ce : String)
    (i : Nat) (u : UserRec) (field value : String)
    (hsess : st.sessionEmail = some ce)
    (hfind : findUserIdx st.users ce = some (i, u))
    (hv : pyStrip value = value) (hvne : value ≠ "")
    (hf : (field = "email" ∧ u.email_changed = true) ∨
          (field = "name" ∧ u.name_changed = true)) :
    api_update_profile st field value = (⟨403, false, none⟩, st) := by
  have hvb : (value == "") = false := by simpa using hvne
  have hpe : pyStrip "email" = "email" := by decide
  have hpn : pyStrip "name" = "name" := by decide
  rcases hf with ⟨rfl, hflag⟩ | ⟨rfl, hflag⟩ <;>
    simp [api_update_profile, hsess, hfind, hflag, hv, hvb, hpe, hpn]

/-- C1 amended-claim witness: on a user with both flags set, an email update
is refused with 403 and the state is returned unchanged. -/
theorem api_update_profile_one_time_guard_witness :
    api_update_profile
        { users := [⟨"a@x.com", "h", "bob", true, true, "Az34Als"⟩],
          codeStore := [], verifiedTokens := [], pendingEmailChanges := [],
          sessionEmail := some "a@x.com" } "email" "c@x.com" =
      (⟨403, false, none⟩,
        { users := [⟨"a@x.com", "h", "bob", true, true, "Az34Als"⟩],
          codeStore := [], verifiedTokens := [], pendingEmailChanges := [],
          sessionEmail := some "a@x.com" }) :=
  api_update_profile_one_time_guard _ "a@x.com" 0
    ⟨"a@x.com", "h", "bob", true, true, "Az34Als"⟩ "email" "c@x.com" rfl
    (by decide) (by decide) (by decide) (Or.inl ⟨rfl, rfl⟩)

/-- A state whose three transient stores each hold one entry, all expired at
time 10. -/
def expiredStoresState : ServerState :=
  { users := [],
    codeStore := [("a@x.com", ⟨"123456", 5⟩)],
    verifiedTokens := [("a@x.com", ⟨"tok", 5⟩)],
    pendingEmailChanges := [("a@x.com", ⟨"b@x.com", "123456", 5⟩)],
    sessionEmail := some "a@x.com" }

/-- C2 counterexample: at time 10 every entry (expiry 5) is expired; the lazy
purge empties the code and token stores but leaves the expired pending
email-change entry in place, refuting "removes every entry whose expiry is
below the current time from all three stores". -/
theorem purge_skips_pending_cex :
    (_purge_expired expiredStoresState 10).codeStore = [] ∧
    (_purge_expired expiredStoresState 10).verifiedTokens = [] ∧
    (_purge_expired expiredStoresState 10).pendingEmailChanges =
      [("a@x.com", ⟨"b@x.com", "123456", 5⟩)] := by decide

/-- C2 (amended): `_purge_expired` removes exactly the entries with
`exp < now` from the verification-code and verified-token stores and leaves
the pending-email-change store untouched; an expired pending entry is
nevertheless invisible to reads because `confirmEmailChange` — the only
reader of that store — independently re-checks its expiry and fails. -/
theorem purge_expired_spec (st : ServerState) (now : Nat) (ce : String)
    (entry : PendingEntry) (new_email code : String)
    (hsess : st.sessionEmail = some ce)
    (hlook : alistLookup st.pendingEmailChanges ce = some entry)
    (hexp : entry.exp < now) :
    (∀ kv : String × CodeEntry, kv ∈ (_purge_expired st now).codeStore ↔
      kv ∈ st.codeStore ∧ ¬ kv.2.exp < now) ∧
    (∀ kv : String × TokenEntry, kv ∈ (_purge_expired st now).verifiedTokens ↔
      kv ∈ st.verifiedTokens ∧ ¬ kv.2.exp < now) ∧
    (_purge_expired st now).pendingEmailChanges = st.pendingEmailChanges ∧
    (api_confirm_email_change st now new_email code).1.ok = false := by
  refine ⟨?_, ?_, rfl, ?_⟩
  · intro kv
    simp [_purge_expired, List.mem_filter]
  · intro kv
    simp [_purge_expired, List.mem_filter]
  · unfold api_confirm_email_change
    simp only [hsess]
    by_cases h1 : (pyStrip new_email == "" || pyStrip code == "") = true
    · simp [h1]
    · have hpurge : (_purge_expired st now).pendingEmailChanges =
          st.pendingEmailChanges := rfl
      simp [h1, hpurge, hlook, hexp]

/-- C2 amended-claim witness: the purge-and-reject behaviour at the concrete
expired state. -/
theorem purge_expired_spec_witness :
    (∀ kv : String × CodeEntry,
      kv ∈ (_purge_expired expiredStoresState 10).codeStore ↔
      kv ∈ expiredStoresState.codeStore ∧ ¬ kv.2.exp < 10) ∧
    (∀ kv : String × TokenEntry,
      kv ∈ (_purge_expired expiredStoresState 10).verifiedTokens ↔
      kv ∈ expiredStoresState.verifiedTokens ∧ ¬ kv.2.exp < 10) ∧
    (_purge_expired expiredStoresState 10).pendingEmailChanges =
      expiredStoresState.pendingEmailChanges ∧
    (api_confirm_email_change expiredStoresState 10 "b@x.com" "123456").1.ok =
      false :=
  purge_expired_spec expiredStoresState 10 "a@x.com" ⟨"b@x.com", "123456", 5⟩
    "b@x.com" "123456" rfl (by decide) (by decide)

/-- C4: with a matching unexpired pending code, `verifyCode` succeeds and
returns the freshly issued token (the oracle output of
`secrets.token_urlsafe(24)`), stores it with expiry `now + 300` seconds, sets
the session principal to the email, and deletes the consumed code entry, so
that an immediately repeated `verifyCode` with the same email and code
fails. -/
theorem api_verify_code_success_spec (st : ServerState) (now now2 : Nat)
    (token token2 : String) (email code : String) (entry : CodeEntry)
    (he : pyStrip email = email) (hc : pyStrip code = code)
    (hne : email ≠ "") (hcne : code ≠ "")
    (hlook : alistLookup st.codeStore email = some entry)
    (hmatch : entry.code = code) (hexp : ¬ entry.exp < now) :
    (api_verify_code st now token email code).1 = ⟨200, true, some token⟩ ∧
    alistLookup (api_verify_code st now token email code).2.verifiedTokens
      email = some ⟨token, now + TOKEN_TTL_SECONDS⟩ ∧
    TOKEN_TTL_SECONDS = 300 ∧
    (api_verify_code st now token email code).2.sessionEmail = some email ∧
    alistLookup (api_verify_code st now token email code).2.codeStore email =
      none ∧
    (api_verify_code (api_verify_code st now token email code).2 now2 token2
      email code).1.ok = false := by
  have heb : (email == "") = false := by simpa using hne
  have hcb : (code == "") = false := by simpa using hcne
  have hplook : alistLookup
      (st.codeStore.filter (fun kv => !decide (kv.2.exp < now))) email =
      some entry := alistLookup_filter_pos hlook (by simp [hexp])
  have hcond : (entry.code != code || decide (entry.exp < now)) = false := by
    simp [hmatch, hexp]
  have hres : api_verify_code st now token email code =
      (⟨200, true, some token⟩,
        { _purge_expired st now with
          verifiedTokens := alistInsert (_purge_expired st now).verifiedTokens
            email ⟨token, now + TOKEN_TTL_SECONDS⟩,
          sessionEmail := some email,
          codeStore := alistErase (_purge_expired st now).codeStore email }) := by
    unfold api_verify_code
    rw [he, hc]
    simp [heb, hcb, _purge_expired, hplook, hcond]
  have hnone : alistLookup
      (api_verify_code st now token email code).2.codeStore email = none := by
    rw [hres]
    exact alistLookup_erase_self _ _
  refine ⟨by rw [hres], ?_, rfl, by rw [hres], hnone, ?_⟩
  · rw [hres]
    exact alistLookup_insert _ _ _
  · rw [hres]
    have hgone2 : alistLookup
        ((alistErase (st.codeStore.filter (fun kv => !decide (kv.2.exp < now)))
          email).filter (fun kv => !decide (kv.2.exp < now2))) email = none :=
      alistLookup_filter_none _ (alistLookup_erase_self _ _)
    unfold api_verify_code
    rw [he, hc]
    simp [heb, hcb, _purge_expired, hgone2]

/-- C4 witness: a concrete request-state where verification succeeds and
returns the token. -/
theorem api_verify_code_success_spec_witness :
    (api_verify_code
      { users := [], codeStore := [("a@x.com", ⟨"123456", 100⟩)],
        verifiedTokens := [], pendingEmailChanges := [],
        sessionEmail := none } 50 "TOK" "a@x.com" "123456").1 =
      ⟨200, true, some "TOK"⟩ :=
  (api_verify_code_success_spec _ 50 60 "TOK" "TOK2" "a@x.com" "123456"
    ⟨"123456", 100⟩ (by decide) (by decide) (by decide) (by decide)
    (by decide) rfl (by decide)).1

/-- C5: a pending verification code whose expiry timestamp is below the
current time is rejected by `verifyCode` even when the submitted code matches
the stored one — the lazy purge removes the expired entry before the
lookup. -/
theorem api_verify_code_expired_fails (st : ServerState) (now : Nat)
    (token email code : String) (entry : CodeEntry)
    (he : pyStrip email = email) (hc : pyStrip code = code)
    (hne : email ≠ "") (hcne : code ≠ "")
    (hnodup : (st.codeStore.map Prod.fst).Nodup)
    (hlook : alistLookup st.codeStore email = some entry)
    (hmatch : entry.code = code) (hexp : entry.exp < now) :
    (api_verify_code st now token email code).1 = ⟨400, false, none⟩ := by
  have heb : (email == "") = false := by simpa using hne
  have hcb : (code == "") = false := by simpa using hcne
  have hgone : alistLookup
      (st.codeStore.filter (fun kv => !decide (kv.2.exp < now))) email =
      none := alistLookup_filter_neg hnodup hlook (by simp [hexp])
  unfold api_verify_code
  rw [he, hc]
  simp [heb, hcb, _purge_expired, hgone]

/-- C5 witness: at time 10 a code stored with expiry 5 is rejected even
though the submitted code matches. -/
theorem api_verify_code_expired_fails_witness :
    (api_verify_code expiredStoresState 10 "TOK" "a@x.com" "123456").1 =
      ⟨400, false, none⟩ :=
  api_verify_code_expired_fails expiredStoresState 10 "TOK" "a@x.com" "123456"
    ⟨"123456", 5⟩ (by decide) (by decide) (by decide) (by decide) (by decide)
    (by decide) rfl (by decide)

/-- C6: `resetPassword` succeeds only when a matching unexpired token exists
for the email (last conjunct); on success it overwrites the user's stored
password with the fresh hash-oracle output, persists the updated list, and
deletes the token, so the same token cannot be used for a second reset. -/
theorem api_reset_password_spec (hashed hashed2 : String) (st : ServerState)
    (now now2 : Nat) (email new_pass token : String) (v : TokenEntry)
    (i : Nat) (u : UserRec)
    (he : pyStrip email = email) (hp : pyStrip new_pass = new_pass)
    (ht : pyStrip token = token)
    (hne : email ≠ "") (hpne : new_pass ≠ "") (htne : token ≠ "")
    (hv : alistLookup st.verifiedTokens email = some v)
    (hmatch : v.token = token) (hexp : ¬ v.exp < now)
    (hu : findUserIdx st.users email = some (i, u)) :
    (api_reset_password hashed st now email new_pass token).1 =
      ⟨200, true, none⟩ ∧
    (api_reset_password hashed st now email new_pass token).2.users =
      st.users.set i { u with pass := hashed } ∧
    alistLookup
      (api_reset_password hashed st now email new_pass token).2.verifiedTokens
      email = none ∧
    (api_reset_password hashed2
      (api_reset_password hashed st now email new_pass token).2 now2 email
      new_pass token).1.ok = false ∧
    (∀ st2 : ServerState,
      (api_reset_password hashed st2 now email new_pass token).1.ok = true →
      ∃ v2, alistLookup (_purge_expired st2 now).verifiedTokens email =
          some v2 ∧ v2.token = token ∧ ¬ v2.exp < now) := by
  have heb : (email == "") = false := by simpa using hne
  have hpb : (new_pass == "") = false := by simpa using hpne
  have htb : (token == "") = false := by simpa using htne
  have hplook : alistLookup
      (st.verifiedTokens.filter (fun kv => !decide (kv.2.exp < now))) email =
      some v := alistLookup_filter_pos hv (by simp [hexp])
  have hcond : (v.token != token || decide (v.exp < now)) = false := by
    simp [hmatch, hexp]
  have hres : api_reset_password hashed st now email new_pass token =
      (⟨200, true, none⟩,
        { _purge_expired st now with
          users := st.users.set i { u with pass := hashed },
          verifiedTokens :=
            alistErase (_purge_expired st now).verifiedTokens email }) := by
    unfold api_reset_password
    rw [he, hp, ht]
    simp [heb, hpb, htb, _purge_expired, hplook, hcond, hu]
  have hnone : alistLookup
      (api_reset_password hashed st now email new_pass token).2.verifiedTokens
      email = none := by
    rw [hres]
    exact alistLookup_erase_self _ _
  refine ⟨by rw [hres], by rw [hres], hnone, ?_, ?_⟩
  · rw [hres]
    have hgone : alistLookup
        ((alistErase (st.verifiedTokens.filter
          (fun kv => !decide (kv.2.exp < now))) email).filter
            (fun kv => !decide (kv.2.exp < now2))) email = none :=
      alistLookup_filter_none _ (alistLookup_erase_self _ _)
    unfold api_reset_password
    rw [he, hp, ht]
    simp [heb, hpb, htb, _purge_expired, hgone]
  · intro st2 hok
    unfold api_reset_password at hok
    rw [he, hp, ht] at hok
    simp only [heb, hpb, htb, Bool.or_self, Bool.or_false, Bool.false_or,
      if_neg (Bool.false_ne_true)] at hok
    split at hok
    · simp at hok
    · next v2 heq =>
      refine ⟨v2, heq, ?_⟩
      split at hok
      · simp at hok
      · next hc2 =>
        simp only [Bool.or_eq_true, bne_iff_ne, ne_eq, decide_eq_true_eq,
          not_or] at hc2
        exact ⟨by simpa using hc2.1, hc2.2⟩

/-- C6 witness: a concrete state where the reset succeeds. -/
theorem api_reset_password_spec_witness :
    (api_reset_password "NEWHASH"
      { users := [⟨"a@x.com", "OLDHASH", "", false, false, "Az34Als"⟩],
        codeStore := [], verifiedTokens := [("a@x.com", ⟨"TOK", 100⟩)],
        pendingEmailChanges := [], sessionEmail := none } 50 "a@x.com" "newpw"
      "TOK").1 = ⟨200, true, none⟩ :=
  (api_reset_password_spec "NEWHASH" "NEWHASH2" _ 50 60 "a@x.com" "newpw"
    "TOK" ⟨"TOK", 100⟩ 0 ⟨"a@x.com", "OLDHASH", "", false, false, "Az34Als"⟩
    (by decide) (by decide) (by decide) (by decide) (by decide) (by decide)
    (by decide) rfl (by decide) (by decide)).1

/-- C9 (implicit behaviour): login is not read-only on authentication
failure — when the matched user lacks a code, a login attempt with a wrong
password still backfills the code and persists the mutated user list (the
returned file contents differ from the input) before answering 401. -/
theorem api_login_backfills_on_auth_failure
    (checkHash : String → String → Option Bool) (draws : List Draw)
    (st : ServerState) (email pass : String) (i : Nat) (u : UserRec)
    (c : String)
    (he : pyStrip email = email) (hp : pyStrip pass = pass)
    (hne : email ≠ "") (hpne : pass ≠ "")
    (hfind : findUserIdx st.users email = some (i, u)) (hcode : u.code = "")
    (hgen : _generate_unique_code draws (existingCodes st.users) = some c)
    (hinvalid : passwordValid checkHash u.pass pass = false) :
    api_login checkHash draws st email pass =
      some (⟨401, false, none⟩,
        { st with users := st.users.set i { u with code := c } }) ∧
    st.users.set i { u with code := c } ≠ st.users := by
  have heb : (email == "") = false := by simpa using hne
  have hpb : (pass == "") = false := by simpa using hpne
  have hu : st.users[i]? = some u := findUserIdx_getElem st.users email i u hfind
  have hlt : i < st.users.length := (List.getElem?_eq_some_iff.mp hu).1
  obtain ⟨hfmt, _⟩ := generate_unique_spec hgen
  have hcne : c ≠ "" := codeFormatB_ne_empty hfmt
  have hens : _ensure_user_code draws st.users i =
      some (true, st.users.set i { u with code := c }) := by
    unfold _ensure_user_code
    rw [hu]
    simp [hcode, hgen]
  constructor
  · unfold api_login
    rw [he, hp]
    simp [heb, hpb, hfind, hens, hinvalid]
  · intro heq
    have hsame : (st.users.set i { u with code := c })[i]? = st.users[i]? := by
      rw [heq]
    rw [List.getElem?_set_self hlt, hu] at hsame
    injection hsame with hrec
    have : c = "" := by
      have := congrArg UserRec.code hrec
      simpa [hcode] using this
    exact hcne this

/-- C9 witness: wrong-password login against a code-less user backfills the
code `aaaaaaa` into the persisted list and returns 401. -/
theorem api_login_backfills_on_auth_failure_witness :
    api_login (fun _ _ => some false) [⟨0, [0, 0, 0, 0, 0, 0]⟩]
      { users := [⟨"a@x.com", "HH", "", false, false, ""⟩], codeStore := [],
        verifiedTokens := [], pendingEmailChanges := [],
        sessionEmail := none } "a@x.com" "wrongpw" =
      some (⟨401, false, none⟩,
        { users := [⟨"a@x.com", "HH", "", false, false, "aaaaaaa"⟩],
          codeStore := [], verifiedTokens := [], pendingEmailChanges := [],
          sessionEmail := none }) :=
  (api_login_backfills_on_auth_failure (fun _ _ => some false)
    [⟨0, [0, 0, 0, 0, 0, 0]⟩] _ "a@x.com" "wrongpw" 0
    ⟨"a@x.com", "HH", "", false, false, ""⟩ "aaaaaaa" (by decide) (by decide)
    (by decide) (by decide) (by decide) rfl (by decide) rfl).1

/-- C10 (implicit behaviour): `requestCode` and `verifyCode` never consult
the user store — even for an email with no registered record, the request
stores a pending code and a subsequent matching verification succeeds, issues
the token, and establishes that email as the session principal, which
therefore corresponds to no stored user; the user list is untouched
throughout. -/
theorem request_then_verify_unregistered (st : ServerState) (now now2 : Nat)
    (token : String) (email code : String)
    (he : pyStrip email = email) (hc : pyStrip code = code)
    (hne : email ≠ "") (hlen : code.length = 6)
    (hdig : code.toList.all (fun ch => ch.isDigit) = true)
    (hnouser : _find_user st.users email = none)
    (hfresh : ¬ now + CODE_TTL_SECONDS < now2) :
    (api_request_code st now email code).1 = ⟨200, true, none⟩ ∧
    alistLookup (api_request_code st now email code).2.codeStore email =
      some ⟨code, now + CODE_TTL_SECONDS⟩ ∧
    (api_verify_code (api_request_code st now email code).2 now2 token email
      code).1 = ⟨200, true, some token⟩ ∧
    (api_verify_code (api_request_code st now email code).2 now2 token email
      code).2.sessionEmail = some email ∧
    (api_verify_code (api_request_code st now email code).2 now2 token email
      code).2.users = st.users ∧
    _find_user (api_verify_code (api_request_code st now email code).2 now2
      token email code).2.users email = none := by
  have heb : (email == "") = false := by simpa using hne
  have hcne : code ≠ "" := by
    intro hemp
    rw [hemp] at hlen
    simp at hlen
  have hcb : (code == "") = false := by simpa using hcne
  have hlenb : (code.length != 6) = false := by simp [hlen]
  have hdig2 : ∀ x ∈ code.data, x.isDigit = true := by simpa using hdig
  have hreq : api_request_code st now email code =
      (⟨200, true, none⟩,
        { _purge_expired st now with
          codeStore := alistInsert (_purge_expired st now).codeStore email
            ⟨code, now + CODE_TTL_SECONDS⟩ }) := by
    unfold api_request_code
    rw [he, hc]
    simp [heb, hcb, hlenb, _purge_expired]
    exact hdig2
  have hlook : alistLookup (api_request_code st now email code).2.codeStore
      email = some ⟨code, now + CODE_TTL_SECONDS⟩ := by
    rw [hreq]
    exact alistLookup_insert _ _ _
  have hplook : alistLookup
      ((api_request_code st now email code).2.codeStore.filter
        (fun kv => !decide (kv.2.exp < now2))) email =
      some ⟨code, now + CODE_TTL_SECONDS⟩ :=
    alistLookup_filter_pos hlook
      (by simp only [Bool.not_eq_eq_eq_not, Bool.not_true, decide_eq_false_iff_not]
          exact hfresh)
  have hcond : ((⟨code, now + CODE_TTL_SECONDS⟩ : CodeEntry).code != code ||
      decide ((⟨code, now + CODE_TTL_SECONDS⟩ : CodeEntry).exp < now2)) =
      false := by
    simp [hfresh]
  have husers : (api_request_code st now email code).2.users = st.users := by
    rw [hreq]
    rfl
  have hver : api_verify_code (api_request_code st now email code).2 now2
      token email code =
      (⟨200, true, some token⟩,
        { _purge_expired (api_request_code st now email code).2 now2 with
          verifiedTokens := alistInsert
            (_purge_expired (api_request_code st now email code).2
              now2).verifiedTokens email ⟨token, now2 + TOKEN_TTL_SECONDS⟩,
          sessionEmail := some email,
          codeStore := alistErase
            (_purge_expired (api_request_code st now email code).2
              now2).codeStore email }) := by
    unfold api_verify_code
    rw [he, hc]
    have hltb : decide (now + CODE_TTL_SECONDS < now2) = false :=
      decide_eq_false hfresh
    simp [heb, hcb, _purge_expired, hplook, hcond, hltb]
  refine ⟨by rw [hreq], hlook, by rw [hver], by rw [hver], ?_, ?_⟩
  · rw [hver]
    exact husers
  · rw [hver]
    have hfin : _find_user (api_request_code st now email code).2.users
        email = none := by
      rw [husers]
      exact hnouser
    exact hfin

/-- C10 witness: with an empty user store, request-then-verify succeeds for
an unregistered email. -/
theorem request_then_verify_unregistered_witness :
    (api_verify_code (api_request_code
      { users := [], codeStore := [], verifiedTokens := [],
        pendingEmailChanges := [], sessionEmail := none } 10 "x@y.z"
      "654321").2 20 "TOK" "x@y.z" "654321").1 = ⟨200, true, some "TOK"⟩ :=
  (request_then_verify_unregistered
    { users := [], codeStore := [], verifiedTokens := [],
      pendingEmailChanges := [], sessionEmail := none } 10 20 "TOK" "x@y.z"
    "654321" (by decide) (by decide) (by decide) (by decide) (by decide) rfl
    (by decide)).2.2.1

end TradeHub
